import Mathlib

/-!
Verification of the ralph-copilot loop-orchestration core.

The definitions below are a shallow embedding of the TypeScript sources:
  * `src/fileUtils.ts`   — task-ledger parsing (`parseTasksFromContent`,
    `parseTasksAsync`, `getNextTaskAsync`, `getTaskStatsAsync`),
  * `src/taskRunner.ts`  — `TaskRunner` bookkeeping and the
    `LoopOrchestrator` state machine (`startLoop`, `pauseLoop`,
    `resumeLoop`, `stopLoop`, `runNextTask`, `handlePrdChange`).

File-system reads are passed in as explicit `Option String` arguments
(`none` models a missing file, mirroring `readPRDAsync` returning `null`);
the current wall-clock time `Date.now()` is an explicit `Int` argument
(milliseconds).  Sub-components whose implementation files are not part of
the repository snapshot (`types.ts`, `timerManager.ts`, `fileWatchers.ts`)
are modelled from the specification where noted.
-/

namespace Ralph

/-! ### Data model (`types.ts`, spec §3) -/

/-- Task status. Modelled from the spec: `types.ts` is not in the snapshot;
spec §3 gives `status: one of {Pending, InProgress, Complete, Blocked}`. -/
inductive TaskStatus
  | PENDING
  | IN_PROGRESS
  | COMPLETE
  | BLOCKED
deriving DecidableEq, Repr

/-- One parsed ledger task (`Task` in `types.ts`, fields as used by
`parseTasksFromContent`). -/
structure Task where
  id : String
  description : String
  status : TaskStatus
  lineNumber : Nat
  rawLine : String
deriving DecidableEq, Repr

/-! ### JavaScript string-primitive semantics

`parseTasksFromContent` uses the regex `/^[-*]\s*\[([ x~!])\]\s*(.+)$/im`
per line (lines produced by `content.split('\n')`), plus
`String.prototype.trim` and `toLowerCase`.  We embed those primitives
over `List Char`. -/

/-- ECMAScript LineTerminator characters (`\n`, `\r`, U+2028, U+2029).
In a JS regex, `.` matches any character except these, and with the `m`
flag `^`/`$` match at their boundaries. -/
def isLineTerminator (c : Char) : Bool :=
  c = '\n' || c = '\r' || c = '\u2028' || c = '\u2029'

/-- ECMAScript `\s` (WhiteSpace ∪ LineTerminator): the character class
used by the regex and the set removed by `String.prototype.trim`. -/
def isJsWhitespace (c : Char) : Bool :=
  c = ' ' || c = '\t' || c = '\u000B' || c = '\u000C' ||
  c = '\u00A0' || c = '\uFEFF' || c = '\u1680' ||
  ('\u2000' ≤ c && c ≤ '\u200A') ||
  c = '\u202F' || c = '\u205F' || c = '\u3000' ||
  isLineTerminator c

/-- `String.prototype.trim` on the underlying character list: drop
JS whitespace from both ends. -/
def trimList (l : List Char) : List Char :=
  ((l.dropWhile isJsWhitespace).reverse.dropWhile isJsWhitespace).reverse

/-- `String.prototype.trim`. -/
def jsTrim (s : String) : String :=
  ⟨trimList s.data⟩

/-- The regex character class `[ x~!]` under the `i` flag: it also
admits `X` (case-insensitive matching of the letter). -/
def isMarkerChar (c : Char) : Bool :=
  c = ' ' || c = 'x' || c = 'X' || c = '~' || c = '!'

/-- `content.split('\n')` on character lists: splits at every `'\n'`,
keeping empty pieces (so `""` yields `[[]]`, a trailing newline yields a
trailing empty piece), exactly as `String.prototype.split`. -/
def splitLinesChars : List Char → List (List Char)
  | [] => [[]]
  | c :: cs =>
    let r := splitLinesChars cs
    if c = '\n' then [] :: r
    else
      match r with
      | [] => [[c]]
      | l :: ls => (c :: l) :: ls

/-- Anchored match of `[-*]\s*\[([ x~!])\]\s*(.+)$` at the head of the
remaining input (one piece of the `'\n'`-split, so the input contains no
`'\n'`).  Returns the captured marker and the capture of `(.+)`.

The `\s*(.+)$` part is resolved according to the engine's greedy /
backtracking semantics:
  * `\s*` greedily eats JS whitespace; if a character remains it is not
    whitespace, hence not a line terminator, so `.` matches it and the
    greedy `.+` extends to the maximal run of non-LineTerminator
    characters, after which `$` holds (end of input or before a
    terminator, which the `m` flag allows).
  * If everything after `]` is whitespace, `\s*` backtracks to the last
    position holding a non-LineTerminator character, `.+` captures that
    single whitespace character, and `$` holds after it.  If every
    remaining character is a line terminator (or nothing remains) there
    is no match. -/
def matchTaskAt (line : List Char) : Option (Char × List Char) :=
  match line with
  | [] => none
  | b :: rest =>
    if b = '-' || b = '*' then
      match rest.dropWhile isJsWhitespace with
      | '[' :: m :: ']' :: rest2 =>
        if isMarkerChar m then
          match rest2.dropWhile isJsWhitespace with
          | c :: cs => some (m, (c :: cs).takeWhile (fun d => !isLineTerminator d))
          | [] =>
            match rest2.reverse.dropWhile isLineTerminator with
            | [] => none
            | c :: _ => some (m, [c])
        else none
      | _ => none
    else none

/-- `regex.exec(line)`: leftmost match.  With the `m` flag, `^` anchors at
position 0 or immediately after a LineTerminator character, so after the
anchored attempt at the start fails we retry after each terminator, left
to right (`execAfter`). -/
def execAfter : List Char → Option (Char × List Char)
  | [] => none
  | c :: cs =>
    if isLineTerminator c then
      match matchTaskAt cs with
      | some r => some r
      | none => execAfter cs
    else execAfter cs

/-- See `execAfter`. -/
def execTaskRegex (line : List Char) : Option (Char × List Char) :=
  match matchTaskAt line with
  | some r => some r
  | none => execAfter line

/-- The `switch (marker)` in `parseTasksFromContent`, applied to the
lowercased marker: `'x'` → COMPLETE, `'~'` → IN_PROGRESS,
`'!'` → BLOCKED, default (the space) → PENDING. -/
def statusOfMarker (m : Char) : TaskStatus :=
  if m = 'x' then TaskStatus.COMPLETE
  else if m = '~' then TaskStatus.IN_PROGRESS
  else if m = '!' then TaskStatus.BLOCKED
  else TaskStatus.PENDING

/-- One iteration of the `for` loop body in `parseTasksFromContent`:
`i` is the 0-based line index. -/
def parseLine (i : Nat) (line : List Char) : Option Task :=
  match execTaskRegex line with
  | none => none
  | some (marker, descRaw) =>
    some { id := "task-" ++ toString (i + 1)
           description := jsTrim ⟨descRaw⟩
           status := statusOfMarker marker.toLower
           lineNumber := i + 1
           rawLine := ⟨line⟩ }

/-- The `for` loop of `parseTasksFromContent`, pushing the parsed task of
each matching line in order. -/
def parseLines : Nat → List (List Char) → List Task
  | _, [] => []
  | i, line :: rest =>
    match parseLine i line with
    | some t => t :: parseLines (i + 1) rest
    | none => parseLines (i + 1) rest

/-- `parseTasksFromContent` (`fileUtils.ts:89-127`). -/
def parseTasksFromContent (content : String) : List Task :=
  parseLines 0 (splitLinesChars content.data)

/-- `parseTasksAsync` (`fileUtils.ts:129-133`).  The argument is the
result of `readPRDAsync()`: `none` for a missing/unreadable file.  The
guard `if (!content) return []` also treats the empty string as absent
(it is falsy). -/
def parseTasksAsync (content : Option String) : List Task :=
  match content with
  | none => []
  | some c => if c = "" then [] else parseTasksFromContent c

/-- The predicate `t.status === PENDING || t.status === IN_PROGRESS`
used by both `getNextTaskAsync` and `getTaskStatsAsync`. -/
def isOpenTask (t : Task) : Bool :=
  decide (t.status = TaskStatus.PENDING) || decide (t.status = TaskStatus.IN_PROGRESS)

/-- `getNextTaskAsync` (`fileUtils.ts:135-138`): first pending or
in-progress task, else `none` (the source's `|| null`). -/
def getNextTaskAsync (content : Option String) : Option Task :=
  (parseTasksAsync content).find? isOpenTask

/-- Result record of `getTaskStatsAsync`. -/
structure TaskStats where
  total : Nat
  completed : Nat
  pending : Nat
deriving DecidableEq, Repr

/-- `getTaskStatsAsync` (`fileUtils.ts:140-147`). -/
def getTaskStatsAsync (content : Option String) : TaskStats :=
  let tasks := parseTasksAsync content
  { total := tasks.length
    completed := (tasks.filter (fun t => decide (t.status = TaskStatus.COMPLETE))).length
    pending := (tasks.filter isOpenTask).length }

/-! ### Task Runner (`taskRunner.ts`, class `TaskRunner`) -/

/-- One finished iteration (`TaskCompletion` in `types.ts`, constructed in
`recordTaskCompletion`).  Timestamps and durations are in milliseconds. -/
structure TaskCompletion where
  taskDescription : String
  completedAt : Int
  duration : Int
  iteration : Int
deriving DecidableEq, Repr

/-- Loop settings.  Only `maxIterations` is read by the embedded
operations; the remaining fields of the source `RalphSettings` are
irrelevant here. -/
structure RalphSettings where
  maxIterations : Int
deriving DecidableEq, Repr

/-- Modelled from the spec: `types.ts` (with `DEFAULT_SETTINGS`) is not in
the snapshot; spec §3 gives "maximum iteration count (0 = unlimited)". -/
def DEFAULT_SETTINGS : RalphSettings :=
  { maxIterations := 0 }

/-- The mutable fields of class `TaskRunner` (`taskRunner.ts:20-27`),
with their initializers in `initialTaskRunner`. -/
structure TaskRunnerState where
  taskHistory : List TaskCompletion
  taskStartTime : Int
  currentTaskDescription : String
  iterationCount : Int
  settings : RalphSettings
deriving DecidableEq, Repr

/-- Field initializers of `TaskRunner`: empty history, `taskStartTime = 0`,
empty current task, counter 0, default settings. -/
def initialTaskRunner : TaskRunnerState :=
  { taskHistory := []
    taskStartTime := 0
    currentTaskDescription := ""
    iterationCount := 0
    settings := DEFAULT_SETTINGS }

/-- `setCurrentTask` (`taskRunner.ts:67-70`): records the description and
captures `Date.now()` as the start timestamp. -/
def setCurrentTask (r : TaskRunnerState) (description : String) (now : Int) :
    TaskRunnerState :=
  { r with currentTaskDescription := description, taskStartTime := now }

/-- `incrementIteration` (`taskRunner.ts:76-78`): `return ++this.iterationCount`
— pre-increment, so the returned value is the new counter. -/
def incrementIteration (r : TaskRunnerState) : Int × TaskRunnerState :=
  (r.iterationCount + 1, { r with iterationCount := r.iterationCount + 1 })

/-- `resetIterations` (`taskRunner.ts:80-82`). -/
def resetIterations (r : TaskRunnerState) : TaskRunnerState :=
  { r with iterationCount := 0 }

/-- `recordTaskCompletion` (`taskRunner.ts:84-95`): elapsed is
`Date.now() - taskStartTime`; the record is pushed onto the history.
The log emission through the UI callback is not modelled. -/
def recordTaskCompletion (r : TaskRunnerState) (now : Int) :
    TaskCompletion × TaskRunnerState :=
  let completion : TaskCompletion :=
    { taskDescription := r.currentTaskDescription
      completedAt := now
      duration := now - r.taskStartTime
      iteration := r.iterationCount }
  (completion, { r with taskHistory := r.taskHistory ++ [completion] })

/-- `checkIterationLimit` (`taskRunner.ts:97-103`):
`this.settings.maxIterations > 0 && this.iterationCount >= this.settings.maxIterations`.
The method only reads state (its side effect is a log emission), so it is
embedded as a pure function. -/
def checkIterationLimit (r : TaskRunnerState) : Bool :=
  decide (0 < r.settings.maxIterations) &&
  decide (r.settings.maxIterations ≤ r.iterationCount)

/-! ### Loop Orchestrator (`taskRunner.ts`, class `LoopOrchestrator`)

The orchestrator owns the execution state plus the watcher/timer
sub-components.  The sub-component implementations (`fileWatchers.ts`,
`timerManager.ts`) are not in the snapshot, so their observable state is
modelled from the spec (§4.3-4.5) as explicit flags; the orchestrator
methods below are transcribed from the source and drive those flags
through the same calls the source makes. -/

/-- Execution state.  Modelled from the spec: `types.ts` is not in the
snapshot; spec §3/§4.6 give states Idle and Running with an orthogonal
`paused` flag (the flag lives in `LoopOrchestrator.isPaused`). -/
inductive LoopExecutionState
  | IDLE
  | RUNNING
deriving DecidableEq, Repr

/-- Modelled from the spec: observable state of the ledger watcher
(spec §4.5): whether the subscription exists (`started`), whether
callbacks are suppressed (`enabled`), and the checkpointed last-seen
content (`updateContent`). -/
structure WatcherState where
  started : Bool
  enabled : Bool
  lastContent : String
deriving DecidableEq, Repr

/-- Modelled from the spec: inactivity-monitor states
{Stopped, Running, Waiting} of §4.4, with pause/resume — here `Waiting`
is the orthogonal informational flag `waiting` set by `setWaiting`. -/
inductive InactivityStatus
  | stopped
  | running
  | paused
deriving DecidableEq, Repr

/-- Modelled from the spec (§4.4): the watchdog arming state plus the
informational `waiting` flag.  Timer deadlines are not modelled;
`recordActivity` resets the deadline without changing this state. -/
structure InactivityMonitorState where
  status : InactivityStatus
  waiting : Bool
deriving DecidableEq, Repr

/-- `InactivityMonitor.start(onTimeout)`: arms the watchdog. -/
def InactivityMonitorState.start (m : InactivityMonitorState) :
    InactivityMonitorState :=
  { m with status := InactivityStatus.running }

/-- `InactivityMonitor.stop()`: fully disarms (spec §4.4). -/
def InactivityMonitorState.stop (_ : InactivityMonitorState) :
    InactivityMonitorState :=
  { status := InactivityStatus.stopped, waiting := false }

/-- `InactivityMonitor.pause()`: stops the underlying timer without
clearing the waiting flag (spec §4.4). -/
def InactivityMonitorState.pause (m : InactivityMonitorState) :
    InactivityMonitorState :=
  if m.status = InactivityStatus.running then
    { m with status := InactivityStatus.paused }
  else m

/-- `InactivityMonitor.resume()`: restarts the timer after a pause. -/
def InactivityMonitorState.resume (m : InactivityMonitorState) :
    InactivityMonitorState :=
  if m.status = InactivityStatus.paused then
    { m with status := InactivityStatus.running }
  else m

/-- `InactivityMonitor.setWaiting(b)`. -/
def InactivityMonitorState.setWaiting (m : InactivityMonitorState) (b : Bool) :
    InactivityMonitorState :=
  { m with waiting := b }

/-- `InactivityMonitor.recordActivity()`: resets the deadline only; the
armed/paused/waiting state is unchanged (spec §4.4). -/
def InactivityMonitorState.recordActivity (m : InactivityMonitorState) :
    InactivityMonitorState :=
  m

/-- Externally visible actions emitted by the orchestrator: progress-log
appends (`appendProgressAsync`), dispatches to the external agent
(`triggerCopilotAgent`), countdown starts (`countdownTimer.start`),
user-facing notifications, and UI log lines.  UI status/stats/timing
refreshes are out of scope (spec §1) and not recorded. -/
inductive Event
  | log (message : String)
  | progressAppend (entry : String)
  | countdownStart
  | dispatchTask (description : String)
  | infoMessage (message : String)
deriving DecidableEq, Repr

/-- Recognizer for `Event.progressAppend`. -/
def Event.isProgressAppend : Event → Bool
  | Event.progressAppend _ => true
  | _ => false

/-- Recognizer for `Event.countdownStart`. -/
def Event.isCountdownStart : Event → Bool
  | Event.countdownStart => true
  | _ => false

/-- The mutable fields of `LoopOrchestrator` (`taskRunner.ts:174-184`):
execution state, paused flag, session start, the owned `TaskRunner`, the
three watchers of `FileWatcherManager`, the countdown timer and the
inactivity monitor. -/
structure OrchState where
  state : LoopExecutionState
  isPaused : Bool
  sessionStartTime : Int
  taskRunner : TaskRunnerState
  prdWatcher : WatcherState
  activityWatcherStarted : Bool
  prdCreationWatcherStarted : Bool
  inactivity : InactivityMonitorState
  countdownRunning : Bool
deriving DecidableEq, Repr

/-- Initial orchestrator: `state = IDLE`, nothing armed. -/
def initialOrch : OrchState :=
  { state := LoopExecutionState.IDLE
    isPaused := false
    sessionStartTime := 0
    taskRunner := initialTaskRunner
    prdWatcher := { started := false, enabled := false, lastContent := "" }
    activityWatcherStarted := false
    prdCreationWatcherStarted := false
    inactivity := { status := InactivityStatus.stopped, waiting := false }
    countdownRunning := false }

/-- `stopLoop` (`taskRunner.ts:277-290`): dispose every watcher, stop the
countdown and the inactivity monitor, reset execution state and the
paused flag.  The remaining statements only refresh the UI. -/
def stopLoop (s : OrchState) : OrchState × List Event :=
  ({ s with
      prdWatcher := { s.prdWatcher with started := false, enabled := false }
      activityWatcherStarted := false
      prdCreationWatcherStarted := false
      countdownRunning := false
      inactivity := s.inactivity.stop
      state := LoopExecutionState.IDLE
      isPaused := false },
   [])

/-- `Math.round(d / 1000)` for an integer number of milliseconds `d`:
round half towards positive infinity, i.e. `⌊(d + 500) / 1000⌋`. -/
def mathRoundDiv1000 (d : Int) : Int :=
  Int.fdiv (d + 500) 1000

/-- `startCountdown` (`taskRunner.ts:491-502`) up to the countdown being
started.  The code `await`s the full countdown and then, only if still
Running and unpaused, re-enters `runNextTask`; that continuation runs at
countdown expiry and is a separate step not modelled here (no claim
refers to it). -/
def startCountdown (s : OrchState) : OrchState × List Event :=
  ({ s with countdownRunning := true },
   [Event.log "Starting next task in REVIEW_COUNTDOWN_SECONDS seconds...",
    Event.countdownStart])

/-- The completion test of `handlePrdChange` (`taskRunner.ts:434`):
`!task || task.description !== currentTask`. -/
def completionDeclared (task : Option Task) (currentTask : String) : Bool :=
  match task with
  | none => true
  | some t => decide (t.description ≠ currentTask)

/-- `handlePrdChange` (`taskRunner.ts:424-454`), the ledger-watcher
callback.  `newContent` is the watcher payload (checkpointed via
`updateContent`); `ledger` is what `getNextTaskAsync`'s re-read of the
ledger file returns at that moment; `now` is `Date.now()`.  Note the
source has no execution-state guard: the body runs the same way whatever
`s.state` is. -/
def handlePrdChange (s : OrchState) (newContent : String) (ledger : Option String)
    (now : Int) : OrchState × List Event :=
  let s1 := { s with
      inactivity := s.inactivity.recordActivity
      prdWatcher := { s.prdWatcher with lastContent := newContent } }
  let task := getNextTaskAsync ledger
  if completionDeclared task s1.taskRunner.currentTaskDescription then
    let s2 := { s1 with
        prdWatcher := { s1.prdWatcher with enabled := false }
        inactivity := s1.inactivity.stop }
    let rc := recordTaskCompletion s2.taskRunner now
    let s3 := { s2 with taskRunner := rc.2 }
    let entry := "✅ Completed: " ++ rc.1.taskDescription ++ " (took "
        ++ toString (mathRoundDiv1000 rc.1.duration) ++ "s)"
    let cd := startCountdown s3
    (cd.1,
     [Event.log "PRD changed - checking task status..."]
       ++ [Event.progressAppend entry] ++ cd.2)
  else
    (s1, [Event.log "PRD changed - checking task status..."])

/-- `runNextTask` (`taskRunner.ts:381-422`): the per-task cycle.
`ledger` is the content the ledger file holds while this handler runs
(read twice in the source, by `getTaskStatsAsync` and `getNextTaskAsync`;
the file is not written between the two reads by this code). -/
def runNextTask (s : OrchState) (ledger : Option String) (now : Int) :
    OrchState × List Event :=
  if s.state ≠ LoopExecutionState.RUNNING ∨ s.isPaused = true then (s, [])
  else
    let stats := getTaskStatsAsync ledger
    if stats.pending = 0 then
      let st := stopLoop s
      (st.1, [Event.log "🎉 All tasks completed!"] ++ st.2
        ++ [Event.infoMessage "All tasks completed"])
    else
      match getNextTaskAsync ledger with
      | none =>
        let st := stopLoop s
        (st.1, [Event.log "No more tasks to process"] ++ st.2)
      | some task =>
        if checkIterationLimit s.taskRunner then
          let st := stopLoop s
          (st.1, [Event.log "Reached maximum iterations. Stopping."] ++ st.2)
        else
          let inc := incrementIteration s.taskRunner
          let tr := setCurrentTask inc.2 task.description now
          let s1 := { s with
              taskRunner := tr
              prdWatcher := { s.prdWatcher with enabled := true }
              inactivity := (s.inactivity.setWaiting true) }
          (s1,
           [Event.log ("Task " ++ toString inc.1 ++ ": " ++ task.description),
            Event.dispatchTask task.description,
            Event.log "Waiting for Copilot to complete..."])

/-- `pauseLoop` (`taskRunner.ts:254-264`): no-op unless Running; sets the
paused flag, disables the ledger watcher, pauses the inactivity monitor
and stops the countdown. -/
def pauseLoop (s : OrchState) : OrchState × List Event :=
  if s.state ≠ LoopExecutionState.RUNNING then (s, [])
  else
    ({ s with
        isPaused := true
        prdWatcher := { s.prdWatcher with enabled := false }
        inactivity := s.inactivity.pause
        countdownRunning := false },
     [Event.log "Loop paused"])

/-- `resumeLoop` (`taskRunner.ts:266-275`): no-op unless paused; clears
the paused flag, resumes the inactivity monitor, then re-enters
`runNextTask`. -/
def resumeLoop (s : OrchState) (ledger : Option String) (now : Int) :
    OrchState × List Event :=
  if s.isPaused = false then (s, [])
  else
    let s1 := { s with isPaused := false, inactivity := s.inactivity.resume }
    let r := runNextTask s1 ledger now
    (r.1, [Event.log "Loop resumed"] ++ r.2)

/-- The successful-path body of `startLoop` (`taskRunner.ts:232-250`)
before the final `runNextTask` call: ensure the progress file, clear
history, set `state = RUNNING`, clear the paused flag, reset the
iteration counter, record the session start, and arm the watchers
(`setupWatchers`, `taskRunner.ts:354-368`: the ledger watcher starts
with `await readPRDAsync() || ''` as initial content, the activity
watcher starts, the inactivity monitor is armed). -/
def startLoopSetup (s : OrchState) (ledger : Option String) (now : Int) :
    OrchState :=
  { s with
      state := LoopExecutionState.RUNNING
      isPaused := false
      taskRunner := resetIterations { s.taskRunner with taskHistory := [] }
      sessionStartTime := now
      prdWatcher := { started := true, enabled := true
                      lastContent := ledger.getD "" }
      activityWatcherStarted := true
      inactivity := s.inactivity.start }

/-- `startLoop` (`taskRunner.ts:218-252`): rejected with a notice when
already Running or when the ledger has no pending task; otherwise runs
`startLoopSetup` and dispatches the first task via `runNextTask`. -/
def startLoop (s : OrchState) (ledger : Option String) (now : Int) :
    OrchState × List Event :=
  if s.state = LoopExecutionState.RUNNING then
    (s, [Event.log "Loop is already running"])
  else if (getTaskStatsAsync ledger).pending = 0 then
    (s, [Event.log "No pending tasks found.",
         Event.infoMessage "No pending tasks found"])
  else
    let s1 := startLoopSetup s ledger now
    let r := runNextTask s1 ledger now
    (r.1, [Event.log "🚀 Starting Ralph loop..."] ++ r.2)

/-! ### Concrete states used to evaluate the model -/

/-- An orchestrator state as it stands while task `"A"` is in flight:
Running, unpaused, ledger watcher enabled, inactivity monitor armed and
waiting, one iteration dispatched at t = 2000 ms. -/
def exampleRunningState : OrchState :=
  { state := LoopExecutionState.RUNNING
    isPaused := false
    sessionStartTime := 1000
    taskRunner := { taskHistory := []
                    taskStartTime := 2000
                    currentTaskDescription := "A"
                    iterationCount := 1
                    settings := DEFAULT_SETTINGS }
    prdWatcher := { started := true, enabled := true, lastContent := "- [ ] A" }
    activityWatcherStarted := true
    prdCreationWatcherStarted := false
    inactivity := { status := InactivityStatus.running, waiting := true }
    countdownRunning := false }

/-- `exampleRunningState` after `pauseLoop`-style suspension, with the
iteration counter at 5. -/
def examplePausedState : OrchState :=
  { exampleRunningState with
      isPaused := true
      taskRunner := { exampleRunningState.taskRunner with iterationCount := 5 }
      prdWatcher := { started := true, enabled := false, lastContent := "- [ ] A" }
      inactivity := { status := InactivityStatus.paused, waiting := true } }

end Ralph

namespace Ralph

/-! ### Helper lemmas -/

theorem dropWhile_dropWhile_same (p : α → Bool) (l : List α) :
    (l.dropWhile p).dropWhile p = l.dropWhile p := by
  induction l with
  | nil => rfl
  | cons a t ih =>
    by_cases h : p a
    · simp [List.dropWhile_cons, h, ih]
    · simp [List.dropWhile_cons, h]

theorem dropWhile_append_single {p : α → Bool} {a : α} (h : p a = false)
    (l : List α) : (l ++ [a]).dropWhile p = l.dropWhile p ++ [a] := by
  induction l with
  | nil => simp [List.dropWhile_cons, h]
  | cons b t ih =>
    by_cases hb : p b
    · simp [List.dropWhile_cons, hb, ih]
    · simp [List.dropWhile_cons, hb]

theorem dropWhile_head_false {p : α → Bool} {l t : List α} {a : α}
    (h : l.dropWhile p = a :: t) : p a = false := by
  induction l with
  | nil => simp [List.dropWhile] at h
  | cons b u ih =>
    by_cases hb : p b
    · exact ih (by simpa [List.dropWhile_cons, hb] using h)
    · rw [List.dropWhile_cons_of_neg hb] at h
      cases h
      simpa using hb

theorem trimList_idem (l : List Char) : trimList (trimList l) = trimList l := by
  have h1 : (trimList l).dropWhile isJsWhitespace = trimList l := by
    unfold trimList
    cases hd1 : l.dropWhile isJsWhitespace with
    | nil => simp
    | cons a t =>
      have ha : isJsWhitespace a = false := dropWhile_head_false hd1
      rw [List.reverse_cons, dropWhile_append_single ha, List.reverse_append]
      simp [List.dropWhile_cons, ha]
  have h2 : (trimList l).reverse.dropWhile isJsWhitespace = (trimList l).reverse := by
    unfold trimList
    rw [List.reverse_reverse]
    exact dropWhile_dropWhile_same _ _
  show (((trimList l).dropWhile isJsWhitespace).reverse.dropWhile
      isJsWhitespace).reverse = trimList l
  rw [h1, h2, List.reverse_reverse]

theorem jsTrim_idem (s : String) : jsTrim (jsTrim s) = jsTrim s := by
  show (⟨trimList (trimList s.data)⟩ : String) = ⟨trimList s.data⟩
  rw [trimList_idem]

theorem parseLine_eq_some {i : Nat} {line : List Char} {t : Task}
    (h : parseLine i line = some t) :
    t.lineNumber = i + 1 ∧ ∃ raw : String, t.description = jsTrim raw := by
  unfold parseLine at h
  cases hexec : execTaskRegex line with
  | none => rw [hexec] at h; cases h
  | some r =>
    rw [hexec] at h
    cases r with
    | mk marker descRaw =>
      cases h
      exact ⟨rfl, ⟨⟨descRaw⟩, rfl⟩⟩

theorem mem_parseLines {t : Task} :
    ∀ {i : Nat} {lines : List (List Char)}, t ∈ parseLines i lines →
      ∃ j line, parseLine j line = some t := by
  intro i lines
  induction lines generalizing i with
  | nil => intro h; cases h
  | cons line rest ih =>
    intro h
    unfold parseLines at h
    cases hp : parseLine i line with
    | none => rw [hp] at h; exact ih h
    | some u =>
      rw [hp] at h
      rcases List.mem_cons.mp h with h | h
      · exact ⟨i, line, by rw [hp, h]⟩
      · exact ih h

theorem parseLines_lineNumber_gt {i : Nat} {lines : List (List Char)} :
    ∀ t ∈ parseLines i lines, i < t.lineNumber := by
  induction lines generalizing i with
  | nil => intro t h; cases h
  | cons line rest ih =>
    intro t h
    unfold parseLines at h
    cases hp : parseLine i line with
    | none =>
      rw [hp] at h
      exact Nat.lt_of_succ_lt (ih t h)
    | some u =>
      rw [hp] at h
      rcases List.mem_cons.mp h with h | h
      · subst h
        rw [(parseLine_eq_some hp).1]
        exact Nat.lt_succ_self i
      · exact Nat.lt_of_succ_lt (ih t h)

theorem parseLines_pairwise (i : Nat) (lines : List (List Char)) :
    (parseLines i lines).Pairwise (fun a b => a.lineNumber < b.lineNumber) := by
  induction lines generalizing i with
  | nil => exact List.Pairwise.nil
  | cons line rest ih =>
    unfold parseLines
    cases hp : parseLine i line with
    | none => exact ih (i + 1)
    | some t =>
      refine List.Pairwise.cons ?_ (ih (i + 1))
      intro u hu
      rw [(parseLine_eq_some hp).1]
      exact parseLines_lineNumber_gt u hu

theorem isOpenTask_iff {t : Task} :
    isOpenTask t = true ↔
      (t.status = TaskStatus.PENDING ∨ t.status = TaskStatus.IN_PROGRESS) := by
  simp [isOpenTask]

theorem length_filter_open (l : List Task) :
    (l.filter isOpenTask).length
      = l.countP (fun t => decide (t.status = TaskStatus.PENDING))
        + l.countP (fun t => decide (t.status = TaskStatus.IN_PROGRESS)) := by
  induction l with
  | nil => rfl
  | cons t l ih =>
    cases h : t.status <;>
      simp [List.filter_cons, List.countP_cons, isOpenTask, h, ih] <;> omega

theorem runNextTask_counter (s : OrchState) (ledger : Option String) (now : Int) :
    (runNextTask s ledger now).1.taskRunner.iterationCount
        = s.taskRunner.iterationCount ∨
    (runNextTask s ledger now).1.taskRunner.iterationCount
        = s.taskRunner.iterationCount + 1 := by
  unfold runNextTask
  by_cases h1 : s.state ≠ LoopExecutionState.RUNNING ∨ s.isPaused = true
  · left; simp [h1]
  · by_cases h2 : (getTaskStatsAsync ledger).pending = 0
    · left; simp [h1, h2, stopLoop]
    · cases h3 : getNextTaskAsync ledger with
      | none => left; simp [h1, h2, h3, stopLoop]
      | some task =>
        by_cases h4 : checkIterationLimit s.taskRunner = true
        · left; simp [h1, h2, h3, h4, stopLoop]
        · right; simp [h1, h2, h3, h4, incrementIteration, setCurrentTask]

/-! ### Claims -/

/-- C4: for each marker in `{ , x, X, ~, !}`, parsing `"- [<marker>] T"`
(bullet `-` or `*`) yields one task with status Pending, Complete,
Complete, InProgress, Blocked respectively (marker matching is
case-insensitive); a line whose bracket holds any other single character
is not parsed as a task line, and non-matching lines are ignored. -/
theorem c4_marker_mapping :
    (parseTasksFromContent "- [ ] T"
        = [{ id := "task-1", description := "T", status := TaskStatus.PENDING,
             lineNumber := 1, rawLine := "- [ ] T" }] ∧
     parseTasksFromContent "- [x] T"
        = [{ id := "task-1", description := "T", status := TaskStatus.COMPLETE,
             lineNumber := 1, rawLine := "- [x] T" }] ∧
     parseTasksFromContent "- [X] T"
        = [{ id := "task-1", description := "T", status := TaskStatus.COMPLETE,
             lineNumber := 1, rawLine := "- [X] T" }] ∧
     parseTasksFromContent "- [~] T"
        = [{ id := "task-1", description := "T", status := TaskStatus.IN_PROGRESS,
             lineNumber := 1, rawLine := "- [~] T" }] ∧
     parseTasksFromContent "- [!] T"
        = [{ id := "task-1", description := "T", status := TaskStatus.BLOCKED,
             lineNumber := 1, rawLine := "- [!] T" }] ∧
     parseTasksFromContent "* [x] T"
        = [{ id := "task-1", description := "T", status := TaskStatus.COMPLETE,
             lineNumber := 1, rawLine := "* [x] T" }] ∧
     parseTasksFromContent "- [?] T" = [] ∧
     parseTasksFromContent "no bullet line" = []) ∧
    (∀ c : Char, isMarkerChar c = false →
       parseTasksFromContent ("- [".push c ++ "] T") = []) := by
  refine ⟨by decide, ?_⟩
  intro c hc
  by_cases hnl : c = '\n'
  · subst hnl; decide
  · have hdata : ("- [".push c ++ "] T").data
        = '-' :: ' ' :: '[' :: c :: ']' :: ' ' :: 'T' :: [] := rfl
    unfold parseTasksFromContent
    rw [hdata]
    have j1 : isJsWhitespace ' ' = true := by decide
    have j2 : isJsWhitespace '[' = false := by decide
    have j3 : isJsWhitespace ']' = false := by decide
    have j4 : isJsWhitespace 'T' = false := by decide
    have t1 : isLineTerminator '-' = false := by decide
    have t2 : isLineTerminator ' ' = false := by decide
    have t3 : isLineTerminator '[' = false := by decide
    have t4 : isLineTerminator ']' = false := by decide
    have t5 : isLineTerminator 'T' = false := by decide
    by_cases hlt : isLineTerminator c = true
    · simp [splitLinesChars, hnl, parseLines, parseLine, execTaskRegex,
            matchTaskAt, execAfter, List.dropWhile_cons, hc, hlt,
            j1, j2, j3, j4, t1, t2, t3, t4, t5]
    · simp [splitLinesChars, hnl, parseLines, parseLine, execTaskRegex,
            matchTaskAt, execAfter, List.dropWhile_cons, hc, hlt,
            j1, j2, j3, j4, t1, t2, t3, t4, t5]

/-- Witness for C4 at the concrete non-marker character `?`. -/
theorem c4_marker_mapping_witness :
    isMarkerChar '?' = false ∧
    parseTasksFromContent ("- [".push '?' ++ "] T") = [] :=
  ⟨by decide, c4_marker_mapping.2 '?' (by decide)⟩

/-- C5: for every ledger document, `stats.pending` equals the count of
Pending tasks plus the count of InProgress tasks, `stats.total` equals
the count of all parsed tasks, `stats.completed` equals the count of
Complete tasks, and an empty or absent document yields
`{total 0, completed 0, pending 0}`. -/
theorem c5_stats :
    (∀ content : Option String,
      (getTaskStatsAsync content).total = (parseTasksAsync content).length ∧
      (getTaskStatsAsync content).completed
        = (parseTasksAsync content).countP
            (fun t => decide (t.status = TaskStatus.COMPLETE)) ∧
      (getTaskStatsAsync content).pending
        = (parseTasksAsync content).countP
            (fun t => decide (t.status = TaskStatus.PENDING))
          + (parseTasksAsync content).countP
              (fun t => decide (t.status = TaskStatus.IN_PROGRESS))) ∧
    getTaskStatsAsync none = { total := 0, completed := 0, pending := 0 } ∧
    getTaskStatsAsync (some "")
      = { total := 0, completed := 0, pending := 0 } := by
  refine ⟨?_, by decide, by decide⟩
  intro content
  refine ⟨rfl, ?_, ?_⟩
  · simp [getTaskStatsAsync, List.countP_eq_length_filter]
  · simpa [getTaskStatsAsync] using length_filter_open (parseTasksAsync content)

/-- C6: `checkIterationLimit` is false whenever the configured
`maxIterations` is zero or negative; for a positive `maxIterations` it is
true iff the counter has reached it (so with unit increments it first
becomes true at `maxIterations`, e.g. false at 1 and 2, true at 3 for
`maxIterations = 3`); it reads but never writes the runner state. -/
theorem c6_iteration_limit :
    (∀ r : TaskRunnerState,
      (checkIterationLimit r = true ↔
        0 < r.settings.maxIterations ∧
          r.settings.maxIterations ≤ r.iterationCount)) ∧
    checkIterationLimit ⟨[], 0, "", 100, ⟨0⟩⟩ = false ∧
    checkIterationLimit ⟨[], 0, "", 100, ⟨-5⟩⟩ = false ∧
    checkIterationLimit ⟨[], 0, "", 1, ⟨3⟩⟩ = false ∧
    checkIterationLimit ⟨[], 0, "", 2, ⟨3⟩⟩ = false ∧
    checkIterationLimit ⟨[], 0, "", 3, ⟨3⟩⟩ = true := by
  refine ⟨?_, by decide, by decide, by decide, by decide, by decide⟩
  intro r
  simp [checkIterationLimit]

/-- C8 counterexample: a `recordTaskCompletion` with no preceding
`setCurrentTask` keeps the initial `taskStartTime = 0`, so at the
(realistic) clock value 1700000000000 ms the recorded duration is the
full epoch timestamp — a huge positive value, not "near-zero or
negative" as the claim states (it is neither negative nor below an hour,
indeed above 10^12 ms ≈ 31 years). -/
theorem c8_duration_counterexample :
    (recordTaskCompletion initialTaskRunner 1700000000000).1.duration
      = 1700000000000 ∧
    ¬((recordTaskCompletion initialTaskRunner 1700000000000).1.duration < 0 ∨
      (recordTaskCompletion initialTaskRunner 1700000000000).1.duration
        ≤ 3600000) := by
  refine ⟨by decide, ?_⟩
  intro h
  rcases h with h | h <;> revert h <;> decide

/-- C8 (amended): `recordTaskCompletion` appends to history a record
whose duration is the current time minus the start timestamp captured by
the most recent `setCurrentTask`; calling it without any preceding
`setCurrentTask` uses the initial start timestamp 0, producing a duration
equal to the current epoch timestamp itself (enormously positive). -/
theorem c8_duration_amended :
    (∀ (r : TaskRunnerState) (now : Int),
      (recordTaskCompletion r now).1.duration = now - r.taskStartTime ∧
      (recordTaskCompletion r now).2.taskHistory
        = r.taskHistory ++ [(recordTaskCompletion r now).1]) ∧
    (∀ (r : TaskRunnerState) (description : String) (start now : Int),
      (recordTaskCompletion (setCurrentTask r description start) now).1.duration
        = now - start) ∧
    (∀ now : Int,
      (recordTaskCompletion initialTaskRunner now).1.duration = now) := by
  refine ⟨fun r now => ⟨rfl, rfl⟩, fun r d start now => rfl, fun now => ?_⟩
  simp [recordTaskCompletion, initialTaskRunner]

/-- C10: every task produced by the parser has a description equal to its
own trim, and a line consisting of a bullet, a valid marker and only
whitespace afterwards (e.g. `"- [x]  "`) still parses as a task whose
description is the empty string. -/
theorem c10_description_trimmed :
    (∀ content : String, ∀ t ∈ parseTasksFromContent content,
        jsTrim t.description = t.description) ∧
    parseTasksFromContent "- [x]  "
      = [{ id := "task-1", description := "", status := TaskStatus.COMPLETE,
           lineNumber := 1, rawLine := "- [x]  " }] := by
  refine ⟨?_, by decide⟩
  intro content t ht
  obtain ⟨j, line, hline⟩ := mem_parseLines ht
  obtain ⟨-, raw, hdesc⟩ := parseLine_eq_some hline
  rw [hdesc]
  exact jsTrim_idem raw

/-- C3: for every ledger document, parsing and then taking the next task
yields the first task in line order (the parsed list is strictly ordered
by line number) whose status is Pending or InProgress, and yields none
exactly when no parsed task has status Pending or InProgress. -/
theorem c3_next_task :
    ∀ content : Option String,
      (getNextTaskAsync content = none ↔
        ∀ t ∈ parseTasksAsync content,
          ¬(t.status = TaskStatus.PENDING ∨
            t.status = TaskStatus.IN_PROGRESS)) ∧
      (∀ t : Task, getNextTaskAsync content = some t →
        (t.status = TaskStatus.PENDING ∨ t.status = TaskStatus.IN_PROGRESS) ∧
        ∃ pre post, parseTasksAsync content = pre ++ t :: post ∧
          ∀ u ∈ pre,
            ¬(u.status = TaskStatus.PENDING ∨
              u.status = TaskStatus.IN_PROGRESS)) ∧
      (parseTasksAsync content).Pairwise
        (fun a b => a.lineNumber < b.lineNumber) := by
  intro content
  refine ⟨?_, ?_, ?_⟩
  · rw [getNextTaskAsync, List.find?_eq_none]
    simp only [isOpenTask_iff]
  · intro t ht
    obtain ⟨hopen, as, bs, heq, hprev⟩ := List.find?_eq_some.mp ht
    refine ⟨isOpenTask_iff.mp hopen, as, bs, heq, ?_⟩
    intro u hu
    rw [← isOpenTask_iff]
    simpa using hprev u hu
  · cases content with
    | none => exact List.Pairwise.nil
    | some str =>
      by_cases hs : str = ""
      · simp [parseTasksAsync, hs]
      · simpa [parseTasksAsync, hs] using
          parseLines_pairwise 0 (splitLinesChars str.data)

/-- Witness for C3 on a concrete two-task ledger whose first task is
complete. -/
theorem c3_next_task_witness :
    (({ id := "task-2", description := "B", status := TaskStatus.PENDING,
        lineNumber := 2, rawLine := "- [ ] B" } : Task).status
          = TaskStatus.PENDING ∨
     ({ id := "task-2", description := "B", status := TaskStatus.PENDING,
        lineNumber := 2, rawLine := "- [ ] B" } : Task).status
          = TaskStatus.IN_PROGRESS) ∧
    ∃ pre post,
      parseTasksAsync (some "- [x] A\n- [ ] B")
        = pre ++ ({ id := "task-2", description := "B",
                    status := TaskStatus.PENDING, lineNumber := 2,
                    rawLine := "- [ ] B" } : Task) :: post ∧
      ∀ u ∈ pre,
        ¬(u.status = TaskStatus.PENDING ∨
          u.status = TaskStatus.IN_PROGRESS) :=
  (c3_next_task (some "- [x] A\n- [ ] B")).2.1
    { id := "task-2", description := "B", status := TaskStatus.PENDING,
      lineNumber := 2, rawLine := "- [ ] B" } (by decide)

/-- C9: `stopLoop` is idempotent — a second call produces the same end
state — and it is always safe: it always leaves execution state Idle
with the paused flag cleared, all watchers disposed and all timers
stopped. -/
theorem c9_stop_idempotent :
    ∀ s : OrchState,
      (stopLoop (stopLoop s).1).1 = (stopLoop s).1 ∧
      (stopLoop s).1.state = LoopExecutionState.IDLE ∧
      (stopLoop s).1.isPaused = false ∧
      (stopLoop s).1.prdWatcher.started = false ∧
      (stopLoop s).1.prdWatcher.enabled = false ∧
      (stopLoop s).1.activityWatcherStarted = false ∧
      (stopLoop s).1.prdCreationWatcherStarted = false ∧
      (stopLoop s).1.inactivity.status = InactivityStatus.stopped ∧
      (stopLoop s).1.countdownRunning = false := by
  intro s
  exact ⟨rfl, rfl, rfl, rfl, rfl, rfl, rfl, rfl, rfl⟩

/-- C1: on every delivered ledger-change event, completion is declared
iff the re-parsed ledger has no next task or the next task's description
differs from the one recorded as in flight; exactly then the ledger
watcher is disabled, the inactivity monitor stopped, one
`TaskCompletion` appended to the history, one progress-log entry
emitted, and the review countdown started — and otherwise none of these
occur. -/
theorem c1_completion_inference :
    ∀ (s : OrchState) (newContent : String) (ledger : Option String)
      (now : Int),
      (completionDeclared (getNextTaskAsync ledger)
          s.taskRunner.currentTaskDescription = true ↔
        (getNextTaskAsync ledger = none ∨
         ∃ t, getNextTaskAsync ledger = some t ∧
           t.description ≠ s.taskRunner.currentTaskDescription)) ∧
      (handlePrdChange s newContent ledger now).1.prdWatcher.enabled
        = (if completionDeclared (getNextTaskAsync ledger)
              s.taskRunner.currentTaskDescription then false
           else s.prdWatcher.enabled) ∧
      (handlePrdChange s newContent ledger now).1.inactivity.status
        = (if completionDeclared (getNextTaskAsync ledger)
              s.taskRunner.currentTaskDescription then
             InactivityStatus.stopped
           else s.inactivity.status) ∧
      (handlePrdChange s newContent ledger now).1.taskRunner.taskHistory
        = (if completionDeclared (getNextTaskAsync ledger)
              s.taskRunner.currentTaskDescription then
             s.taskRunner.taskHistory
               ++ [(recordTaskCompletion s.taskRunner now).1]
           else s.taskRunner.taskHistory) ∧
      ((handlePrdChange s newContent ledger now).2.countP
          Event.isProgressAppend
        = if completionDeclared (getNextTaskAsync ledger)
              s.taskRunner.currentTaskDescription then 1 else 0) ∧
      (handlePrdChange s newContent ledger now).1.countdownRunning
        = (if completionDeclared (getNextTaskAsync ledger)
              s.taskRunner.currentTaskDescription then true
           else s.countdownRunning) ∧
      ((handlePrdChange s newContent ledger now).2.countP
          Event.isCountdownStart
        = if completionDeclared (getNextTaskAsync ledger)
              s.taskRunner.currentTaskDescription then 1 else 0) := by
  intro s newContent ledger now
  refine ⟨?_, ?_⟩
  · cases h : getNextTaskAsync ledger with
    | none => simp [completionDeclared]
    | some t => simp [completionDeclared]
  · by_cases hcd : completionDeclared (getNextTaskAsync ledger)
        s.taskRunner.currentTaskDescription = true
    · simp [handlePrdChange, hcd, startCountdown, recordTaskCompletion,
        InactivityMonitorState.recordActivity, InactivityMonitorState.stop,
        Event.isProgressAppend, Event.isCountdownStart, List.countP_cons]
    · simp [handlePrdChange, hcd,
        InactivityMonitorState.recordActivity,
        Event.isProgressAppend, Event.isCountdownStart, List.countP_cons]

/-- C2 — the code lacks the claimed guard.  After `stopLoop` the
execution state is Idle, yet a subsequently delivered ledger-watcher
callback (here with the ledger read back empty, so no next task exists)
still records a `TaskCompletion`, emits one progress-log append and
starts the review countdown: `handlePrdChange` never re-checks the
execution state. -/
theorem c2_stale_callback_not_noop :
    (stopLoop exampleRunningState).1.state = LoopExecutionState.IDLE ∧
    (handlePrdChange (stopLoop exampleRunningState).1 "" (some "")
        5000).1.taskRunner.taskHistory
      = [{ taskDescription := "A", completedAt := 5000, duration := 3000,
           iteration := 1 }] ∧
    (handlePrdChange (stopLoop exampleRunningState).1 "" (some "")
        5000).2.countP Event.isProgressAppend = 1 ∧
    (handlePrdChange (stopLoop exampleRunningState).1 "" (some "")
        5000).1.countdownRunning = true := by
  refine ⟨rfl, ?_, ?_, ?_⟩ <;> decide

/-- C7 counterexample: `resumeLoop` from a paused state over a ledger
with a pending task re-enters the per-task cycle, which dispatches the
task and increments the iteration counter (here 5 → 6) — so the counter
is not left unchanged by `resumeLoop` as the claim states. -/
theorem c7_resume_changes_counter :
    examplePausedState.taskRunner.iterationCount = 5 ∧
    (resumeLoop examplePausedState (some "- [ ] A")
        9000).1.taskRunner.iterationCount = 6 := by
  refine ⟨rfl, ?_⟩
  decide

/-- C7 (amended): `incrementIteration` returns the previous counter plus
one and stores it (first call after a reset returns 1, so the counter is
strictly increasing across calls); the successful path of `startLoop`
resets the counter to 0 before dispatching; `pauseLoop` leaves it
unchanged; `resumeLoop` never resets it — it either leaves it unchanged
or advances it by exactly the one increment of the task it
re-dispatches. -/
theorem c7_counter_amended :
    (∀ r : TaskRunnerState,
      (incrementIteration r).1 = r.iterationCount + 1 ∧
      (incrementIteration r).2.iterationCount = r.iterationCount + 1) ∧
    (∀ r : TaskRunnerState, (incrementIteration (resetIterations r)).1 = 1) ∧
    (∀ (s : OrchState) (ledger : Option String) (now : Int),
      (startLoopSetup s ledger now).taskRunner.iterationCount = 0) ∧
    (∀ s : OrchState,
      (pauseLoop s).1.taskRunner.iterationCount
        = s.taskRunner.iterationCount) ∧
    (∀ (s : OrchState) (ledger : Option String) (now : Int),
      (resumeLoop s ledger now).1.taskRunner.iterationCount
          = s.taskRunner.iterationCount ∨
      (resumeLoop s ledger now).1.taskRunner.iterationCount
          = s.taskRunner.iterationCount + 1) := by
  refine ⟨fun r => ⟨rfl, rfl⟩,
    fun r => by simp [incrementIteration, resetIterations],
    fun s ledger now => rfl, ?_, ?_⟩
  · intro s
    unfold pauseLoop
    split <;> rfl
  · intro s ledger now
    unfold resumeLoop
    split
    · left; rfl
    · exact runNextTask_counter
        { s with isPaused := false, inactivity := s.inactivity.resume }
        ledger now

/-- Witness for C10 at a concrete parse. -/
theorem c10_description_trimmed_witness :
    ({ id := "task-1", description := "hi", status := TaskStatus.PENDING,
       lineNumber := 1, rawLine := "- [ ] hi" } : Task)
        ∈ parseTasksFromContent "- [ ] hi" ∧
    jsTrim "hi" = "hi" :=
  ⟨by decide,
   c10_description_trimmed.1 "- [ ] hi"
     { id := "task-1", description := "hi", status := TaskStatus.PENDING,
       lineNumber := 1, rawLine := "- [ ] hi" } (by decide)⟩

end Ralph
